import Mathlib

/-
  Verification development for the resilient electric bus fleet simulator.

  Shallow embedding conventions:
  * Python floats are modelled as rationals (exact arithmetic), except the
    haversine distance, which uses real numbers because it involves trig.
  * Python dicts keyed by strings are association lists with dict-update
    semantics; Python sets of hashables are duplicate-free lists where only
    membership matters.
  * External libraries (rasterio raster indexing, geopy geodesic, the random
    module) are modelled as oracle parameters passed to the embedded code.
  * Object references shared between buses and stations are rendered as
    identifiers plus central lookup tables, following the ownership model
    of the system (buses hold weak references by identifier).
-/

namespace EFleets

/-- Immutable WGS-84 coordinate pair, from src/core/geometry.py. -/
structure Location where
  lat : ℚ
  lon : ℚ
deriving DecidableEq

/-- A bus stop, from src/core/route.py (class Stop). -/
structure Stop where
  stop_id : String
  name : String
  location : Location
  is_stage : Bool := false
  demand : ℚ := 1
deriving DecidableEq

/-- Segment between consecutive stops, from src/core/route.py (class
RouteSegment).  The stops list of a route may contain holes (Python None),
so the endpoint fields are optional here. -/
structure RouteSegment where
  from_stop : Option Stop
  to_stop : Option Stop
  distance_meters : Option ℚ := none
deriving DecidableEq

/-- A fixed route: ordered stops plus derived segments, from
src/core/route.py (class Route). -/
structure Route where
  route_id : String
  name : String
  stops : List (Option Stop)
  segments : List RouteSegment
deriving DecidableEq

/-- Route._build_segments: rebuild the segment list from the stop list;
every rebuilt segment gets distance_meters = None. -/
def buildSegments (stops : List (Option Stop)) : List RouteSegment :=
  (List.range (stops.length - 1)).map fun i =>
    { from_stop := stops.getD i none
      to_stop := stops.getD (i + 1) none
      distance_meters := none }

/-- Route construction (the dataclass __post_init__ calls _build_segments). -/
def mkRoute (route_id name : String) (stops : List (Option Stop)) : Route :=
  { route_id := route_id, name := name, stops := stops
    segments := buildSegments stops }

/-- Python list padding: the while-loop in add_stop appends None entries
until the list has at least the requested length. -/
def padStops (stops : List (Option Stop)) (n : ℕ) : List (Option Stop) :=
  stops ++ List.replicate (n - stops.length) none

/-- Route.add_stop from src/core/route.py.  sequence_number is 1-based (as
in the source data); the final _build_segments() call rebuilds all
segments.  The intermediate prev_segment write is embedded faithfully even
though the trailing rebuild discards it. -/
def Route.add_stop (r : Route) (stop : Stop) (sequence_number : ℕ)
    (distance_to_previous : Option ℚ := none) : Route :=
  let target_idx := sequence_number - 1
  let stops := padStops r.stops sequence_number
  let stops := stops.set target_idx (some stop)
  let segments :=
    if 0 < target_idx ∧ distance_to_previous ≠ none then
      let prev_segment : RouteSegment :=
        { from_stop := stops.getD (target_idx - 1) none
          to_stop := some stop
          distance_meters := distance_to_previous }
      if target_idx - 1 < r.segments.length then
        r.segments.set (target_idx - 1) prev_segment
      else
        r.segments ++ [prev_segment]
    else r.segments
  let r1 := { r with stops := stops, segments := segments }
  -- trailing rebuild for consistency, exactly as in the source
  { r1 with segments := buildSegments r1.stops }

/-- Route.get_distance_to_next_stop from src/core/route.py: returns the
pre-loaded segment distance, or None when the index is past the segment
list. -/
def Route.get_distance_to_next_stop (r : Route) (current_stop_index : ℕ) :
    Option ℚ :=
  match r.segments.get? current_stop_index with
  | none => none
  | some segment => segment.distance_meters

/-- The arguments of one Route.add_stop call. -/
structure AddStopCall where
  stop : Stop
  sequence_number : ℕ
  distance_to_previous : Option ℚ := none
deriving DecidableEq

/-- A finite sequence of Route.add_stop calls. -/
def applyAddStops (calls : List AddStopCall) (r : Route) : Route :=
  calls.foldl (fun r c =>
    r.add_stop c.stop c.sequence_number c.distance_to_previous) r

/-- A depot, from src/core/depot.py. -/
structure Depot where
  name : String
  location : Location
deriving DecidableEq

/-- A charging station, from src/core/charging.py; __post_init__ sets
available_slots to total_slots.  Slot counters are Python ints, so they
are modelled as integers. -/
structure ChargingStation where
  name : String
  location : Location
  capacity_kw : ℚ := 100
  total_slots : ℤ := 1
  compatible_companies : List String := ["Default"]
  operational : Bool := true
  available_slots : ℤ
deriving DecidableEq

/-- ChargingStation construction with the __post_init__ initialisation. -/
def mkChargingStation (name : String) (location : Location) (capacity_kw : ℚ)
    (total_slots : ℤ) (compatible_companies : List String)
    (operational : Bool) : ChargingStation :=
  { name := name, location := location, capacity_kw := capacity_kw
    total_slots := total_slots, compatible_companies := compatible_companies
    operational := operational, available_slots := total_slots }

/-- ChargingStation.is_available from src/core/charging.py. -/
def ChargingStation.is_available (s : ChargingStation) (company : String) :
    Bool :=
  s.operational && decide (0 < s.available_slots)
    && decide (company ∈ s.compatible_companies)

/-- ChargingStation.occupy: decrement only when a slot is free. -/
def ChargingStation.occupy (s : ChargingStation) : ChargingStation :=
  if 0 < s.available_slots then
    { s with available_slots := s.available_slots - 1 }
  else s

/-- ChargingStation.release: increment only when below total_slots. -/
def ChargingStation.release (s : ChargingStation) : ChargingStation :=
  if s.available_slots < s.total_slots then
    { s with available_slots := s.available_slots + 1 }
  else s

/-- One call against the slot counter of a station. -/
inductive SlotOp where
  | occupyOp
  | releaseOp
deriving DecidableEq

/-- Apply a finite sequence of occupy() and release() calls. -/
def applySlotOps (ops : List SlotOp) (s : ChargingStation) : ChargingStation :=
  ops.foldl (fun st op =>
    match op with
    | .occupyOp => st.occupy
    | .releaseOp => st.release) s

/-! Distance cache, from src/optimization/distance_cache.py.  Coordinates
are (lat, lon) pairs of reals; the haversine formula involves trig, so this
part of the embedding lives over the real numbers. -/

/-- haversine_km from src/optimization/distance_cache.py: great-circle
distance in km between two (lat, lon) pairs given in degrees, with Earth
radius 6371 km. -/
noncomputable def haversine_km (coord1 coord2 : ℝ × ℝ) : ℝ :=
  let lat1 := coord1.1 * (Real.pi / 180)
  let lon1 := coord1.2 * (Real.pi / 180)
  let lat2 := coord2.1 * (Real.pi / 180)
  let lon2 := coord2.2 * (Real.pi / 180)
  let dlat := lat2 - lat1
  let dlon := lon2 - lon1
  let a := Real.sin (dlat / 2) ^ 2 +
    Real.cos lat1 * Real.cos lat2 * Real.sin (dlon / 2) ^ 2
  let c := 2 * Real.arcsin (Real.sqrt a)
  6371 * c

/-- One entry of the distance matrix built by compute_and_cache_distances:
a self edge gets distance 0.0 without any coordinate lookup; otherwise the
coordinates of both endpoints are read from S_map ((lat, lon), modelled by
the oracle coords) and fed to haversine_km; a failed lookup falls into the
exception handler, which records 0.0. -/
noncomputable def distance_entry (coords : String → Option (ℝ × ℝ))
    (e : String × String) : (String × String) × ℝ :=
  if e.1 = e.2 then (e, 0)
  else
    match coords e.1, coords e.2 with
    | some c1, some c2 => (e, haversine_km c1 c2)
    | _, _ => (e, 0)

/-- compute_and_cache_distances from src/optimization/distance_cache.py:
the loop over feasible_edges building dist_matrix (the JSON cache write is
an external side effect outside this embedding). -/
noncomputable def compute_and_cache_distances
    (coords : String → Option (ℝ × ℝ)) (feasible_edges : List (String × String)) :
    List ((String × String) × ℝ) :=
  feasible_edges.map (distance_entry coords)

/-! Flood hazard map, from src/hazards/flood.py.  The rasterio affine
transform (rasterio.transform.rowcol) is an external collaborator and is
modelled as an oracle from (lon, lat) to integer (row, col); raster cells
hold either a numeric depth in centimeters or NaN. -/

/-- One raster cell: a float that is either NaN or a numeric value. -/
inductive RasterCell where
  | nan
  | val (depth : ℚ)
deriving DecidableEq

/-- The loaded first band of the raster with its shape. -/
structure FloodRaster where
  nrows : ℤ
  ncols : ℤ
  cell : ℤ → ℤ → RasterCell

/-- The flood configuration fields used by the depth query. -/
structure FloodHazardConfig where
  precipitation_cm_per_hr : ℚ := 0
  recession_cm_per_hr : ℚ := 0

/-- FloodHazardMap state: raster data (None when loading failed or the map
is disabled), the external row/col projection, the nodata sentinel, and
the lazily initialised start time t0. -/
structure FloodHazardMap where
  raster_data : Option FloodRaster
  rowcol : ℚ → ℚ → ℤ × ℤ
  nodata_value : Option ℚ
  config : FloodHazardConfig
  t0 : Option ℚ

/-- FloodHazardMap._base_depth_cm_at_point: raster lookup in centimeters;
0 when the map is unloaded, the projected cell is out of bounds, the cell
holds the nodata sentinel or NaN, or the stored depth is not positive.
(The source checks nodata before NaN; a NaN cell compares unequal to every
sentinel in Python, so matching NaN first is equivalent.) -/
def FloodHazardMap.base_depth_cm_at_point (m : FloodHazardMap)
    (lon lat : ℚ) : ℚ :=
  match m.raster_data with
  | none => 0
  | some r =>
    if (m.rowcol lon lat).1 < 0 ∨ r.nrows ≤ (m.rowcol lon lat).1 ∨
        (m.rowcol lon lat).2 < 0 ∨ r.ncols ≤ (m.rowcol lon lat).2 then 0
    else
      match r.cell (m.rowcol lon lat).1 (m.rowcol lon lat).2 with
      | .nan => 0
      | .val depth =>
        if m.nodata_value = some depth then 0
        else if 0 < depth then depth else 0

/-- FloodHazardMap.get_effective_depth_m: base depth plus linear
precipitation/recession dynamics over the hours elapsed since the first
timed query; result in meters, paired with the updated map state (the
source mutates self._t0 on the first call). -/
def FloodHazardMap.get_effective_depth_m (m : FloodHazardMap)
    (lon lat : ℚ) (current_sim_time : Option ℚ) : ℚ × FloodHazardMap :=
  let base_cm := m.base_depth_cm_at_point lon lat
  match current_sim_time with
  | none => (base_cm / 100, m)
  | some t =>
    let t0 := m.t0.getD t
    let m1 := { m with t0 := some t0 }
    let hours := max 0 ((t - t0) / 3600)
    let delta_cm :=
      (m.config.precipitation_cm_per_hr - m.config.recession_cm_per_hr) * hours
    let eff_cm := max 0 (base_cm + delta_cm)
    (eff_cm / 100, m1)

/-! Event queue and hybrid scheduler, from src/simulation/event_queue.py. -/

/-- A discrete simulation event (the data dict carries no scheduling
information and is omitted). -/
structure SimulationEvent where
  time : ℚ
  event_type : String
  bus_id : String
deriving DecidableEq

/-- Heap insertion position according to SimulationEvent.__lt__: order by
time, ties broken by bus_id. -/
def insertEvent (e : SimulationEvent) : List SimulationEvent → List SimulationEvent
  | [] => [e]
  | x :: xs =>
    if e.time < x.time ∨ (e.time = x.time ∧ e.bus_id < x.bus_id) then
      e :: x :: xs
    else
      x :: insertEvent e xs

/-- The heapq min-heap is modelled by its extraction order: a list sorted
by (time, bus_id). -/
def sortEvents (events : List SimulationEvent) : List SimulationEvent :=
  events.foldr insertEvent []

/-- EventQueue.get_next_batch: pop the earliest event, then every event
within batch_threshold of it; returns the batch and the remaining queue. -/
def getNextBatch (queue : List SimulationEvent) (batch_threshold : ℚ) :
    List SimulationEvent × List SimulationEvent :=
  match queue with
  | [] => ([], [])
  | first_event :: rest =>
    let batch_end_time := first_event.time + batch_threshold
    (first_event :: rest.takeWhile (fun e => decide (e.time ≤ batch_end_time)),
     rest.dropWhile (fun e => decide (e.time ≤ batch_end_time)))

/-- Scheduler configuration (HybridSimulationScheduler.__init__ defaults:
30 s batch threshold, 60 s fine step, 300 s coarse step, 300 s gap
threshold). -/
structure SchedulerConfig where
  batch_threshold : ℚ := 30
  fine_step : ℚ := 60
  coarse_step : ℚ := 300
  gap_threshold : ℚ := 300

/-- A schedule entry: (time, step_type, batch). -/
abbrev ScheduleEntry : Type := ℚ × String × List SimulationEvent

/-- The expression batch[-1].time of init_events: the time of the last
event of a batch (0 as an unreachable default for an empty batch). -/
def batchTime (batch : List SimulationEvent) : ℚ :=
  ((batch.getLast?).map (·.time)).getD 0

/-- The first while loop of HybridSimulationScheduler.init_events: consume
events while current_time < sim_end, emitting batch entries at the time of
the last event of each batch and adaptive fine/coarse steps between event
clusters.  The loop is embedded with explicit fuel; it returns the emitted
entries together with the final current_time. -/
def eventPhase (cfg : SchedulerConfig) (sim_end : ℚ) :
    ℕ → List SimulationEvent → ℚ → List ScheduleEntry × ℚ
  | 0, _, current_time => ([], current_time)
  | _ + 1, [], current_time => ([], current_time)
  | fuel + 1, e0 :: rest, current_time =>
    if current_time < sim_end then
      if e0.time ≤ current_time + 1 then
        let bp := getNextBatch (e0 :: rest) cfg.batch_threshold
        let batch_time := batchTime bp.1
        let tail := eventPhase cfg sim_end fuel bp.2 batch_time
        ((batch_time, "batch", bp.1) :: tail.1, tail.2)
      else
        let gap := e0.time - current_time
        let step := if cfg.gap_threshold < gap then cfg.coarse_step else cfg.fine_step
        let step_type := if cfg.gap_threshold < gap then "coarse_step" else "fine_step"
        let next_time := min (min (current_time + step) e0.time) sim_end
        let tail := eventPhase cfg sim_end fuel (e0 :: rest) next_time
        ((next_time, step_type, ([] : List SimulationEvent)) :: tail.1, tail.2)
    else ([], current_time)

/-- The second while loop of init_events: fill the remaining time with
coarse steps up to sim_end (fuel-bounded). -/
def coarseTail (coarse_step sim_end : ℚ) : ℕ → ℚ → List ScheduleEntry
  | 0, _ => []
  | fuel + 1, current_time =>
    if current_time < sim_end then
      let next_time := min (current_time + coarse_step) sim_end
      (next_time, "coarse_step", ([] : List SimulationEvent)) ::
        coarseTail coarse_step sim_end fuel next_time
    else []

/-- HybridSimulationScheduler.init_events: enqueue the events (heap order),
run the event phase from sim_start, then the coarse tail. -/
def init_events (cfg : SchedulerConfig) (events : List SimulationEvent)
    (sim_start sim_end : ℚ) (fuel1 fuel2 : ℕ) : List ScheduleEntry :=
  let queue := sortEvents events
  let phase := eventPhase cfg sim_end fuel1 queue sim_start
  phase.1 ++ coarseTail cfg.coarse_step sim_end fuel2 phase.2

/-! Disruptions (src/core/disruption.py), settings (src/config/settings.py)
and the bus agent (src/fleet/bus.py). -/

/-- A time-bounded route-scoped disruption. -/
structure DisruptionEvent where
  route_id : String
  affected_stop_ids : List String
  start_time : ℚ
  end_time : ℚ
  description : String := ""
deriving DecidableEq

/-- DisruptionEvent.is_active: start_time <= now <= end_time. -/
def DisruptionEvent.is_active (d : DisruptionEvent) (current_time : ℚ) : Bool :=
  decide (d.start_time ≤ current_time) && decide (current_time ≤ d.end_time)

/-- Settings used by the bus agent, from src/config/settings.py of the
variant that defines the Bus class. -/
def SimulationSettings.ENERGY_CONSUMPTION_KWH_PER_KM : ℚ := 1 / 10

/-- CRITICAL_SOC_PERCENT from src/config/settings.py. -/
def SimulationSettings.CRITICAL_SOC_PERCENT : ℚ := 15

/-- CHARGING_MIN_TIME_SECONDS from src/config/settings.py. -/
def SimulationSettings.CHARGING_MIN_TIME_SECONDS : ℚ := 120

/-- An immediate decision dict of the MIP: {action, station_id or target}. -/
inductive MipAction where
  | charge (station_id : String)
  | return_depot (target : String)
  | move (target_node_id : String)
deriving DecidableEq

/-- A scheduled trip, from src/fleet/bus.py (class Trip). -/
structure Trip where
  route : Route
  start_time : ℚ
  end_time : ℚ
  depot : Depot
deriving DecidableEq

/-- Bus agent state, from src/fleet/bus.py (class Bus), plus the
charging_start_time attribute the decision applier writes.  The shared
charging-station object reference is rendered as the station name (the
system holds weak references by identifier). -/
structure Bus where
  bus_id : String
  depot : Depot
  home_depot : Depot
  battery_capacity_kwh : ℚ := 100
  soc_percent : ℚ := 100
  company : String := "Default"
  current_location : Location
  current_route : Option Route := none
  current_stop_index : ℕ := 0
  status : String := "in_depot"
  delay_seconds : ℚ := 0
  unserved_demand : ℚ := 0
  daily_schedule : List Trip := []
  current_trip_index : ℕ := 0
  charging_station : Option String := none
  charging_start_time : Option ℚ := none
  charging_end_time : Option ℚ := none
  mip_decision : Option MipAction := none
deriving DecidableEq

/-- The soc property getter. -/
def Bus.soc (b : Bus) : ℚ := b.soc_percent

/-- The soc property setter: clamps into [0, 100]. -/
def Bus.setSoc (b : Bus) (value : ℚ) : Bus :=
  { b with soc_percent := max 0 (min 100 value) }

/-- Bus.update_soc: deduct the percentage corresponding to the configured
energy consumption over the given distance. -/
def Bus.update_soc (b : Bus) (distance_km : ℚ) : Bus :=
  let consumption := distance_km * SimulationSettings.ENERGY_CONSUMPTION_KWH_PER_KM
  let percent_reduction := consumption / b.battery_capacity_kwh * 100
  b.setSoc (b.soc - percent_reduction)

/-- Bus.get_distance_to_next_stop: precomputed segment distance if
available, else the geodesic distance in meters (geopy modelled by the geo
oracle). -/
def Bus.get_distance_to_next_stop (b : Bus)
    (geo : Location → Location → ℚ) : Option ℚ :=
  match b.current_route with
  | none => none
  | some route =>
    if route.stops.length ≤ b.current_stop_index then none
    else
      match route.stops.getD b.current_stop_index none with
      | none => none
      | some next_stop =>
        let idx := if 0 < b.current_stop_index then b.current_stop_index - 1 else 0
        match route.get_distance_to_next_stop idx with
        | some precomputed => some precomputed
        | none => some (geo b.current_location next_stop.location)

/-- Bus.find_nearest_charger: among compatible available stations, the
first one at minimal geodesic distance. -/
def Bus.find_nearest_charger (b : Bus) (stations : List ChargingStation)
    (geo : Location → Location → ℚ) : Option ChargingStation :=
  let compatible_available := stations.filter (fun s => s.is_available b.company)
  match compatible_available with
  | [] => none
  | c0 :: rest =>
    some (rest.foldl (fun best s =>
      if geo b.current_location s.location < geo b.current_location best.location
      then s else best) c0)

/-- Bus.start_charging: set the charging fields, move onto the station,
switch to charging, and occupy one slot on the station object.  The
updated station object is returned alongside the bus. -/
def Bus.start_charging (b : Bus) (station : ChargingStation)
    (current_sim_time : ℚ) : Bus × ChargingStation :=
  let required_kwh := (100 - b.soc) / 100 * b.battery_capacity_kwh
  let charging_time_sec :=
    max SimulationSettings.CHARGING_MIN_TIME_SECONDS
      (required_kwh / station.capacity_kw * 3600)
  ({ b with
      charging_station := some station.name
      charging_end_time := some (current_sim_time + charging_time_sec)
      current_location := station.location
      status := "charging" },
   station.occupy)

/-- Write an updated station object back into the central station list
(station names are the identifiers). -/
def updateStation (stations : List ChargingStation) (name : String)
    (f : ChargingStation → ChargingStation) : List ChargingStation :=
  stations.map (fun s => if s.name = name then f s else s)

/-- Bus.start_charging at the world level: the mutation of the shared
station object becomes an update of the central station list. -/
def worldStartCharging (b : Bus) (station : ChargingStation)
    (stations : List ChargingStation) (current_sim_time : ℚ) :
    Bus × List ChargingStation :=
  let r := b.start_charging station current_sim_time
  (r.1, updateStation stations station.name (fun _ => r.2))

/-- Bus.finish_charging: release the occupied slot, clear the charging
fields, restore soc to 100 and return to depot status. -/
def Bus.finish_charging (b : Bus) (stations : List ChargingStation) :
    Bus × List ChargingStation :=
  let stations1 :=
    match b.charging_station with
    | some nm => updateStation stations nm ChargingStation.release
    | none => stations
  (({ b with
        charging_station := none
        charging_end_time := none
        status := "in_depot" }).setSoc 100,
   stations1)

/-- Bus.return_to_depot: strand when the remaining energy cannot cover the
geodesic distance home, else discharge and arrive. -/
def Bus.return_to_depot (b : Bus) (geo : Location → Location → ℚ) : Bus :=
  let dist_m := geo b.current_location b.home_depot.location
  let dist_km := dist_m / 1000
  if b.soc * b.battery_capacity_kwh / 100 <
      dist_km * SimulationSettings.ENERGY_CONSUMPTION_KWH_PER_KM then
    { b with status := "stranded" }
  else
    let b1 := b.update_soc dist_km
    { b1 with current_location := b.home_depot.location, status := "in_depot" }

/-- The context dict passed to Bus.step.  station_map maps MIP node ids to
station identifiers; geo is the geopy geodesic oracle (meters); the
simulated traffic delay drawn from random.randint(5, 30) is an oracle
value. -/
structure StepContext where
  current_sim_time : ℚ
  stations : List ChargingStation
  disruptions : List DisruptionEvent
  station_map : List (String × String) := []
  geo : Location → Location → ℚ
  traffic_delay : ℚ := 5

/-- The tail of the on-route branch of Bus.step, after the disrupted-stop
check: complete the trip, or divert to a charger on projected critical
soc, or perform the normal move. -/
def Bus.onRouteMove (b : Bus) (route : Route)
    (stations : List ChargingStation) (ctx : StepContext) :
    Bus × List ChargingStation :=
  if route.stops.length ≤ b.current_stop_index then
    let b1 := { b with current_route := none, current_stop_index := 0 }
    (b1.return_to_depot ctx.geo, stations)
  else
    match b.get_distance_to_next_stop ctx.geo with
    | none => (b, stations)
    | some distance_m =>
      let distance_km := distance_m / 1000
      let estimated_soc_after := b.soc -
        (distance_km * SimulationSettings.ENERGY_CONSUMPTION_KWH_PER_KM /
          b.battery_capacity_kwh * 100)
      if estimated_soc_after < SimulationSettings.CRITICAL_SOC_PERCENT then
        match b.find_nearest_charger stations ctx.geo with
        | some charger => worldStartCharging b charger stations ctx.current_sim_time
        | none => (b.return_to_depot ctx.geo, stations)
      else
        match route.stops.getD b.current_stop_index none with
        | some next_stop =>
          let b1 := b.update_soc distance_km
          ({ b1 with
              current_location := next_stop.location
              current_stop_index := b1.current_stop_index + 1
              delay_seconds := b1.delay_seconds + ctx.traffic_delay }, stations)
        | none => (b, stations)

/-- The on-route branch of Bus.step: skip a disrupted next stop (add its
demand to unserved_demand and advance the index), otherwise move. -/
def Bus.onRouteStep (b : Bus) (stations : List ChargingStation)
    (ctx : StepContext) : Bus × List ChargingStation :=
  match b.current_route with
  | none => (b, stations)
  | some route =>
    let next_stop : Option Stop :=
      if b.current_stop_index < route.stops.length then
        route.stops.getD b.current_stop_index none
      else none
    match next_stop with
    | some st =>
      if ctx.disruptions.any (fun d =>
          d.is_active ctx.current_sim_time &&
          (d.route_id == route.route_id) &&
          decide (st.stop_id ∈ d.affected_stop_ids)) then
        ({ b with
            unserved_demand := b.unserved_demand + st.demand
            current_stop_index := b.current_stop_index + 1 }, stations)
      else b.onRouteMove route stations ctx
    | none => b.onRouteMove route stations ctx

/-- Bus.step from src/fleet/bus.py: finish charging, execute a pending MIP
decision (only the charge action is handled by the source placeholder),
dispatch a scheduled trip, then run the on-route logic. -/
def Bus.step (b : Bus) (ctx : StepContext) : Bus × List ChargingStation :=
  let current_time := ctx.current_sim_time
  let stations := ctx.stations
  if b.status = "charging" then
    match b.charging_end_time with
    | some te => if te ≤ current_time then b.finish_charging stations else (b, stations)
    | none => (b, stations)
  else
    let afterMip : Bus × List ChargingStation :=
      match b.mip_decision with
      | none => (b, stations)
      | some (.charge station_id) =>
        match (ctx.station_map.lookup station_id).bind
            (fun nm => stations.find? (fun s => s.name == nm)) with
        | some station =>
          if station.is_available b.company then
            let r := worldStartCharging b station stations current_time
            ({ r.1 with mip_decision := none }, r.2)
          else ({ b with mip_decision := none }, stations)
        | none => ({ b with mip_decision := none }, stations)
      | some _ => ({ b with mip_decision := none }, stations)
    let b2 := afterMip.1
    let stations2 := afterMip.2
    let dispatched : Option (Bus × List ChargingStation) :=
      if b2.status = "in_depot" ∨ b2.status = "idle" then
        match b2.daily_schedule.get? b2.current_trip_index with
        | some next_trip =>
          if next_trip.start_time ≤ current_time then
            some ({ b2 with
                current_route := some next_trip.route
                current_stop_index := 0
                status := "on_route"
                current_trip_index := b2.current_trip_index + 1 }, stations2)
          else none
        | none => none
      else none
    match dispatched with
    | some r => r
    | none =>
      if b2.status = "on_route" then b2.onRouteStep stations2 ctx
      else (b2, stations2)

/-! Decision applier, from src/optimization/decision_applier.py.  The
station_map built from C_unique_map maps MIP node ids to station
identifiers; the station object is then read from the central station
list. -/

/-- Resolution of a station id through station_map and the central list. -/
def lookup_station (C_unique_map : List (String × String))
    (stations : List ChargingStation) (station_id : String) :
    Option ChargingStation :=
  (C_unique_map.lookup station_id).bind
    (fun nm => stations.find? (fun s => s.name == nm))

/-- The charge branch of apply_mip_decisions: when the station resolves
and is available for the bus, set the charging fields with duration
min(needed_kwh / capacity_kw * 3600, 3600) and transition to charging;
otherwise drop the decision.  The central station list is not touched by
this branch (no occupy call appears in the source). -/
def apply_charge_decision (bus : Bus) (station_id : String)
    (C_unique_map : List (String × String))
    (stations : List ChargingStation) (current_sim_time : ℚ) : Bus :=
  match lookup_station C_unique_map stations station_id with
  | some station =>
    if station.is_available bus.company then
      let needed_kwh := (100 - bus.soc) / 100 * bus.battery_capacity_kwh
      let charge_rate_kw := station.capacity_kw
      let charge_time_hours := needed_kwh / charge_rate_kw
      let charge_time_seconds := min (charge_time_hours * 3600) 3600
      { bus with
          status := "charging"
          charging_station := some station.name
          charging_start_time := some current_sim_time
          charging_end_time := some (current_sim_time + charge_time_seconds)
          mip_decision := none }
    else { bus with mip_decision := none }
  | none => { bus with mip_decision := none }

/-- Number of buses charging at the named station. -/
def countChargingAt (buses : List Bus) (name : String) : ℤ :=
  ((buses.filter (fun b =>
    b.status == "charging" && b.charging_station == some name)).length : ℤ)

/-- The §8 slot invariant: for every station the number of charging buses
equals total_slots minus available_slots. -/
def slotInvariant (buses : List Bus) (stations : List ChargingStation) : Prop :=
  ∀ c ∈ stations, countChargingAt buses c.name = c.total_slots - c.available_slots

instance (buses : List Bus) (stations : List ChargingStation) :
    Decidable (slotInvariant buses stations) := by
  unfold slotInvariant
  infer_instance

/-! MIP model, from src/optimization/mip_model.py: graph construction and
the post-solve status handling and decision extraction.  The solver itself
(pulp + Gurobi/CBC) is an external collaborator; its outcome is modelled
as a status code plus the variable values read back by value(). -/

/-- Python str.startswith. -/
def pyStartsWith (s pre : String) : Bool := pre.data.isPrefixOf s.data

/-- Keys of a Python dict modelled as an association list. -/
def dictKeys {α : Type} (m : List (String × α)) : List String := m.map (·.1)

/-- Python dict assignment: overwrite in place when the key exists, else
append. -/
def dictInsert {α : Type} (m : List (String × α)) (k : String) (v : α) :
    List (String × α) :=
  if k ∈ dictKeys m then m.map (fun p => if p.1 = k then (k, v) else p)
  else m ++ [(k, v)]

/-- Python set.add on a set modelled as a duplicate-free list. -/
def setInsert {α : Type} [DecidableEq α] (s : List α) (x : α) : List α :=
  if x ∈ s then s else s ++ [x]

/-- A node of the space-time graph: a heterogeneous S_map value. -/
inductive MipNode where
  | stop (s : Stop)
  | depot (d : Depot)
  | station (c : ChargingStation)
deriving DecidableEq

/-- The tuple returned by build_node_maps_and_feasible_edges. -/
structure NetworkGraph where
  S_map : List (String × MipNode)
  C_unique_map : List (String × ChargingStation)
  feasible_edges : List (String × String)
  depot_ids : List String
  disrupted_stop_ids : List String

/-- The disrupted-stop set collected from the active disruptions. -/
def disruptedStopIdsOf (active_disruptions : List DisruptionEvent) :
    List String :=
  active_disruptions.foldl (fun acc d => d.affected_stop_ids.foldl setInsert acc) []

/-- The regular-stops loop of build_node_maps_and_feasible_edges: add each
route stop to S_map unless it is already a key or is disrupted. -/
def stopsPhase (disrupted_stop_ids : List String) (routes : List Route) :
    List (String × MipNode) :=
  routes.foldl (fun m route =>
    route.stops.foldl (fun m stopO =>
      match stopO with
      | some stop =>
        if stop.stop_id ∈ dictKeys m ∨ stop.stop_id ∈ disrupted_stop_ids then m
        else m ++ [(stop.stop_id, MipNode.stop stop)]
      | none => m) m) []

/-- The depots loop: one synthetic Depot_ node per depot; returns the map
and the depot_ids list. -/
def depotsPhase (m0 : List (String × MipNode)) (depots : List Depot) :
    List (String × MipNode) × List String :=
  depots.foldl
    (fun (p : List (String × MipNode) × List String) depot =>
      let depot_id := "Depot_" ++ depot.name
      (dictInsert p.1 depot_id (MipNode.depot depot), p.2 ++ [depot_id]))
    (m0, [])

/-- The charging-stations loop: one synthetic CS_ node per station not in
disrupted_cs_names; returns the map, C_unique_map and the final index. -/
def stationsPhase (m0 : List (String × MipNode))
    (charging_stations : List ChargingStation)
    (disrupted_cs_names : List String) :
    List (String × MipNode) × List (String × ChargingStation) × ℕ :=
  charging_stations.foldl
    (fun (p : List (String × MipNode) × List (String × ChargingStation) × ℕ)
        station =>
      if station.name ∈ disrupted_cs_names then p
      else
        let cs_id := "CS_" ++ station.name ++ "_" ++ toString p.2.2
        (dictInsert p.1 cs_id (MipNode.station station),
         dictInsert p.2.1 cs_id station, p.2.2 + 1))
    (m0, [], 0)

/-- Edge rule 1: consecutive route stops, both present in S_ids and not on
a blocked edge. -/
def edgesRule1 (S_ids : List String) (disrupted_edges : List (String × String))
    (routes : List Route) : List (String × String) :=
  routes.foldl (fun es route =>
    (List.range (route.stops.length - 1)).foldl (fun es i =>
      match route.stops.getD i none, route.stops.getD (i + 1) none with
      | some st1, some st2 =>
        if st1.stop_id ∈ S_ids ∧ st2.stop_id ∈ S_ids ∧
            (st1.stop_id, st2.stop_id) ∉ disrupted_edges then
          setInsert es (st1.stop_id, st2.stop_id)
        else es
      | _, _ => es) es) []

/-- Edge rule 2: every non-CS node to every charging station. -/
def edgesRule2 (S_ids C_ids : List String) (es0 : List (String × String)) :
    List (String × String) :=
  (S_ids.filter (fun s => !(pyStartsWith s "CS_"))).foldl (fun es s =>
    C_ids.foldl (fun es c => setInsert es (s, c)) es) es0

/-- Edge rule 3: every charging station to every depot. -/
def edgesRule3 (C_ids depot_ids : List String)
    (es0 : List (String × String)) : List (String × String) :=
  C_ids.foldl (fun es c =>
    depot_ids.foldl (fun es d => setInsert es (c, d)) es) es0

/-- Edge rule 4: every depot to the first stop of any route. -/
def edgesRule4 (S_ids depot_ids : List String) (routes : List Route)
    (es0 : List (String × String)) : List (String × String) :=
  depot_ids.foldl (fun es d =>
    routes.foldl (fun es route =>
      match route.stops.head? with
      | some (some st0) =>
        if st0.stop_id ∈ S_ids then setInsert es (d, st0.stop_id) else es
      | _ => es) es) es0

/-- Edge rule 5: every regular stop (a Stop value in S_map) to every
depot. -/
def edgesRule5 (S_map : List (String × MipNode)) (S_ids depot_ids : List String)
    (es0 : List (String × String)) : List (String × String) :=
  (S_ids.filter (fun s =>
    match S_map.lookup s with
    | some (MipNode.stop _) => true
    | _ => false)).foldl (fun es s =>
    depot_ids.foldl (fun es d => setInsert es (s, d)) es) es0

/-- build_node_maps_and_feasible_edges from src/optimization/mip_model.py:
nodes are the non-disrupted stops, one synthetic Depot_ node per depot and
one synthetic CS_ node per station; feasible edges follow the five
construction rules of the source.  The sets disrupted_cs_names and
disrupted_edges are declared but never populated in the source, so they
are embedded as empty. -/
def build_node_maps_and_feasible_edges (routes : List Route)
    (charging_stations : List ChargingStation) (depots : List Depot)
    (active_disruptions : List DisruptionEvent) : NetworkGraph :=
  let disrupted_stop_ids := disruptedStopIdsOf active_disruptions
  let disrupted_cs_names : List String := []
  let disrupted_edges : List (String × String) := []
  let m1 := stopsPhase disrupted_stop_ids routes
  let dstep := depotsPhase m1 depots
  let cstep := stationsPhase dstep.1 charging_stations disrupted_cs_names
  let S_map := cstep.1
  let C_unique_map := cstep.2.1
  let S_ids := dictKeys S_map
  let C_ids := dictKeys C_unique_map
  let es1 := edgesRule1 S_ids disrupted_edges routes
  let es2 := edgesRule2 S_ids C_ids es1
  let es3 := edgesRule3 C_ids dstep.2 es2
  let es4 := edgesRule4 S_ids dstep.2 routes es3
  let es5 := edgesRule5 S_map S_ids dstep.2 es4
  { S_map := S_map
    C_unique_map := C_unique_map
    feasible_edges := es5
    depot_ids := dstep.2
    disrupted_stop_ids := disrupted_stop_ids }

/-- The pulp LpStatus table: solver status codes to names (from the pulp
library; 1 Optimal, 0 Not Solved, -1 Infeasible, -2 Unbounded,
-3 Undefined). -/
def lpStatusName (status : ℤ) : String :=
  if status = 1 then "Optimal"
  else if status = 0 then "Not Solved"
  else if status = -1 then "Infeasible"
  else if status = -2 then "Unbounded"
  else "Undefined"

/-- The outcome of prob.solve as read back through value(): the status
code and the t = 0 values of the charge and y variables (a None value
reads as 0). -/
structure SolveOutcome where
  status : ℤ
  chargeVal : String → String → ℚ
  yVal : String → String × String → ℚ

/-- Immediate decision extraction for one bus (the loop body of step 9 of
optimize_network): a t = 0 charge variable wins; otherwise the first t = 0
traversal decides by the prefix of its target node id. -/
def perBusDecision (C_ids : List String)
    (feasible_edges : List (String × String)) (sol : SolveOutcome)
    (b : String) : Option MipAction :=
  match C_ids.find? (fun c => decide (sol.chargeVal b c = 1)) with
  | some c => some (.charge c)
  | none =>
    match feasible_edges.find? (fun e => decide (sol.yVal b e = 1)) with
    | some e =>
      if pyStartsWith e.2 "Depot_" then some (.return_depot e.2)
      else if pyStartsWith e.2 "CS_" then some (.charge e.2)
      else some (.move e.2)
    | none => none

/-- Step 9 of optimize_network over all buses. -/
def extract_decisions (buses : List String) (C_ids : List String)
    (feasible_edges : List (String × String)) (sol : SolveOutcome) :
    List (String × MipAction) :=
  buses.filterMap (fun b =>
    (perBusDecision C_ids feasible_edges sol b).map (fun a => (b, a)))

/-- The value returned by optimize_network after the solve: either the
early {decisions: {}} dict, or the full result with the extracted
decisions and the status name. -/
inductive MipReturn where
  | emptyResult
  | solved (decisions : List (String × MipAction)) (status : String)
deriving DecidableEq

/-- The post-solve tail of optimize_network: return the empty decision map
unless prob.status is in [1, -1], else extract the immediate decisions. -/
def optimize_network_post (buses : List String) (C_ids : List String)
    (feasible_edges : List (String × String)) (sol : SolveOutcome) :
    MipReturn :=
  if sol.status ≠ 1 ∧ sol.status ≠ -1 then MipReturn.emptyResult
  else MipReturn.solved (extract_decisions buses C_ids feasible_edges sol)
    (lpStatusName sol.status)

/-! Concrete inputs used to instantiate the claims on small scenarios. -/

/-- A concrete coordinate. -/
def locA : Location := ⟨8, 76⟩

/-- A second concrete coordinate. -/
def locB : Location := ⟨9, 77⟩

/-- A concrete single-slot station for the slot-accounting scenario. -/
def c2Station : ChargingStation :=
  mkChargingStation "S" locA 50 1 ["Default"] true

/-- A concrete idle bus at 50 percent soc for the slot-accounting
scenario. -/
def c2Bus : Bus :=
  { bus_id := "B1", depot := ⟨"D", locA⟩, home_depot := ⟨"D", locA⟩
    soc_percent := 50, current_location := locA, status := "idle" }

/-- A concrete two-slot station for the charge-decision scenario. -/
def c6Station : ChargingStation :=
  mkChargingStation "S6" locA 100 2 ["Default"] true

/-- A concrete bus at 40 percent soc with a 200 kWh battery. -/
def c6Bus : Bus :=
  { bus_id := "B6", depot := ⟨"D", locA⟩, home_depot := ⟨"D", locA⟩
    battery_capacity_kwh := 200, soc_percent := 40
    current_location := locA, status := "on_route" }

/-- A concrete stop with demand 3. -/
def c7StopA : Stop := ⟨"A", "StopA", locA, false, 3⟩

/-- A second concrete stop. -/
def c7StopB : Stop := ⟨"B", "StopB", locB, false, 2⟩

/-- A concrete two-stop route. -/
def c7Route : Route := mkRoute "R1" "RouteOne" [some c7StopA, some c7StopB]

/-- A concrete on-route bus whose next stop is c7StopA. -/
def c7Bus : Bus :=
  { bus_id := "B7", depot := ⟨"D", locB⟩, home_depot := ⟨"D", locB⟩
    soc_percent := 80, current_location := locB, status := "on_route"
    current_route := some c7Route, current_stop_index := 0 }

/-- A disruption covering c7StopA on route R1, active on [0, 1000]. -/
def c7Disruption : DisruptionEvent := ⟨"R1", ["A"], 0, 1000, "test"⟩

/-- A concrete step context holding the active disruption. -/
def c7Ctx : StepContext :=
  { current_sim_time := 500, stations := []
    disruptions := [c7Disruption], station_map := []
    geo := fun _ _ => 100000, traffic_delay := 10 }

/-- A concrete flood map with one 250 cm cell and static hydrology. -/
def c4Map : FloodHazardMap :=
  { raster_data := some { nrows := 1, ncols := 1, cell := fun _ _ => RasterCell.val 250 }
    rowcol := fun _ _ => (0, 0)
    nodata_value := none
    config := { precipitation_cm_per_hr := 0, recession_cm_per_hr := 0 }
    t0 := none }

/-- An available two-slot station for the pending-decision scenario. -/
def c7xStation : ChargingStation :=
  mkChargingStation "S9" locA 100 2 ["Default"] true

/-- The on-route bus of the scenario, but carrying a pending charge
decision for station S9. -/
def c7xBus : Bus := { c7Bus with mip_decision := some (MipAction.charge "CS1") }

/-- The step context of the scenario: the same active disruption, plus
station S9 reachable through the station map. -/
def c7xCtx : StepContext :=
  { c7Ctx with stations := [c7xStation], station_map := [("CS1", "S9")] }

/-- A concrete event far before the simulation start. -/
def c3Event : SimulationEvent := ⟨0, "trip_start", "B1"⟩

/-- The solver outcome of an infeasible solve whose stale charge variable
still reads 1. -/
def c1Sol : SolveOutcome :=
  { status := -1, chargeVal := fun _ _ => 1, yVal := fun _ _ => 0 }

/-- A disruption covering stop B of route R1, for the graph-construction
scenario. -/
def c8Disruption : DisruptionEvent := ⟨"R1", ["B"], 0, 1000, "flood"⟩

/-- A concrete depot named D. -/
def c8Depot : Depot := ⟨"D", locA⟩

/-- A feasible solver outcome that moves bus B1 from the depot node to
stop A. -/
def c8Sol : SolveOutcome :=
  { status := 1, chargeVal := fun _ _ => 0
    yVal := fun _ e => if e = ("Depot_D", "A") then 1 else 0 }

/-- The concrete graph of the scenario: route with stops A and B, one
station, one depot, stop B disrupted. -/
def c8Graph : NetworkGraph :=
  build_node_maps_and_feasible_edges [c7Route]
    [mkChargingStation "S8" locB 100 1 ["Default"] true] [c8Depot]
    [c8Disruption]

/-! Theorems. -/

/-- A single occupy call preserves the slot range. -/
theorem occupy_range (s : ChargingStation) (h1 : 0 ≤ s.available_slots)
    (h2 : s.available_slots ≤ s.total_slots) :
    0 ≤ s.occupy.available_slots ∧
      s.occupy.available_slots ≤ s.occupy.total_slots := by
  unfold ChargingStation.occupy
  split
  · refine ⟨?_, ?_⟩ <;> simp <;> omega
  · exact ⟨h1, h2⟩

/-- A single release call preserves the slot range. -/
theorem release_range (s : ChargingStation) (h1 : 0 ≤ s.available_slots)
    (h2 : s.available_slots ≤ s.total_slots) :
    0 ≤ s.release.available_slots ∧
      s.release.available_slots ≤ s.release.total_slots := by
  unfold ChargingStation.release
  split
  · refine ⟨?_, ?_⟩ <;> simp <;> omega
  · exact ⟨h1, h2⟩

/-- Any sequence of slot calls preserves the slot range. -/
theorem slotOps_range (ops : List SlotOp) :
    ∀ s : ChargingStation, 0 ≤ s.available_slots →
      s.available_slots ≤ s.total_slots →
      0 ≤ (applySlotOps ops s).available_slots ∧
        (applySlotOps ops s).available_slots ≤ (applySlotOps ops s).total_slots := by
  induction ops with
  | nil => intro s h1 h2; exact ⟨h1, h2⟩
  | cons op rest ih =>
    intro s h1 h2
    have hstep : applySlotOps (op :: rest) s =
        applySlotOps rest (match op with
          | .occupyOp => s.occupy
          | .releaseOp => s.release) := rfl
    rw [hstep]
    cases op with
    | occupyOp => exact ih _ (occupy_range s h1 h2).1 (occupy_range s h1 h2).2
    | releaseOp => exact ih _ (release_range s h1 h2).1 (release_range s h1 h2).2

/-- Claim C5: for every station constructed with total_slots >= 1 and a
full initial slot pool, any finite sequence of occupy and release calls
keeps available_slots within [0, total_slots]; occupy decrements only
when a slot is free and release increments only below total_slots, and
both are no-ops otherwise. -/
theorem claim_C5_slot_bounds (st : ChargingStation)
    (htotal : 1 ≤ st.total_slots)
    (hinit : st.available_slots = st.total_slots)
    (ops : List SlotOp) :
    (0 ≤ (applySlotOps ops st).available_slots ∧
      (applySlotOps ops st).available_slots ≤ (applySlotOps ops st).total_slots) ∧
    (∀ s : ChargingStation,
      (0 < s.available_slots →
        s.occupy.available_slots = s.available_slots - 1) ∧
      (s.available_slots ≤ 0 → s.occupy = s) ∧
      (s.available_slots < s.total_slots →
        s.release.available_slots = s.available_slots + 1) ∧
      (s.total_slots ≤ s.available_slots → s.release = s)) := by
  refine ⟨slotOps_range ops st (by omega) (by omega), ?_⟩
  intro s
  refine ⟨?_, ?_, ?_, ?_⟩
  · intro h; unfold ChargingStation.occupy; rw [if_pos h]
  · intro h; unfold ChargingStation.occupy; rw [if_neg (by omega)]
  · intro h; unfold ChargingStation.release; rw [if_pos h]
  · intro h; unfold ChargingStation.release; rw [if_neg (by omega)]

/-- Witness for claim C5: a concrete two-slot station with three occupy
calls followed by one release. -/
theorem claim_C5_slot_bounds_witness :
    (1 ≤ (mkChargingStation "W5" locA 100 2 ["Default"] true).total_slots ∧
      (mkChargingStation "W5" locA 100 2 ["Default"] true).available_slots =
        (mkChargingStation "W5" locA 100 2 ["Default"] true).total_slots) ∧
    (0 ≤ (applySlotOps [SlotOp.occupyOp, SlotOp.occupyOp, SlotOp.occupyOp,
          SlotOp.releaseOp] (mkChargingStation "W5" locA 100 2 ["Default"] true)).available_slots ∧
      (applySlotOps [SlotOp.occupyOp, SlotOp.occupyOp, SlotOp.occupyOp,
          SlotOp.releaseOp] (mkChargingStation "W5" locA 100 2 ["Default"] true)).available_slots ≤
        (applySlotOps [SlotOp.occupyOp, SlotOp.occupyOp, SlotOp.occupyOp,
          SlotOp.releaseOp] (mkChargingStation "W5" locA 100 2 ["Default"] true)).total_slots) :=
  ⟨⟨by decide, by decide⟩,
    (claim_C5_slot_bounds (mkChargingStation "W5" locA 100 2 ["Default"] true)
      (by decide) (by decide)
      [SlotOp.occupyOp, SlotOp.occupyOp, SlotOp.occupyOp, SlotOp.releaseOp]).1⟩

/-- Every segment produced by _build_segments has no stored distance. -/
theorem buildSegments_distance (stops : List (Option Stop)) :
    ∀ seg ∈ buildSegments stops, seg.distance_meters = none := by
  intro seg hseg
  unfold buildSegments at hseg
  obtain ⟨i, _, rfl⟩ := List.mem_map.mp hseg
  rfl

/-- The trailing rebuild keeps the segments of any add_stop result in the
image of _build_segments. -/
theorem applyAddStops_segments (calls : List AddStopCall) :
    ∀ r : Route, r.segments = buildSegments r.stops →
      (applyAddStops calls r).segments =
        buildSegments (applyAddStops calls r).stops := by
  induction calls with
  | nil => intro r h; exact h
  | cons c rest ih =>
    intro r _
    have hstep : applyAddStops (c :: rest) r =
        applyAddStops rest
          (r.add_stop c.stop c.sequence_number c.distance_to_previous) := rfl
    rw [hstep]
    exact ih _ rfl

/-- Claim C10: after any sequence of add_stop calls on a constructed
route, every segment has distance_meters = None and
get_distance_to_next_stop returns None at every index, because the
trailing _build_segments call rebuilds all segments with distance None. -/
theorem claim_C10_distances_discarded (route_id name : String)
    (stops0 : List (Option Stop)) (calls : List AddStopCall)
    (_hseq : ∀ c ∈ calls, 1 ≤ c.sequence_number) :
    (∀ seg ∈ (applyAddStops calls (mkRoute route_id name stops0)).segments,
      seg.distance_meters = none) ∧
    (∀ i : ℕ,
      (applyAddStops calls (mkRoute route_id name stops0)).get_distance_to_next_stop i
        = none) := by
  have hseg : (applyAddStops calls (mkRoute route_id name stops0)).segments =
      buildSegments (applyAddStops calls (mkRoute route_id name stops0)).stops :=
    applyAddStops_segments calls _ rfl
  constructor
  · intro seg hmem
    rw [hseg] at hmem
    exact buildSegments_distance _ seg hmem
  · intro i
    rcases hget : (applyAddStops calls (mkRoute route_id name stops0)).segments[i]?
      with _ | seg
    · simp [Route.get_distance_to_next_stop, hget]
    · have hm := List.getElem?_mem hget
      rw [hseg] at hm
      simp [Route.get_distance_to_next_stop, hget, buildSegments_distance _ seg hm]

/-- Witness for claim C10: two add_stop calls that both supply distances,
after which the lookup at index 0 still returns None. -/
theorem claim_C10_distances_discarded_witness :
    (∀ c ∈ [AddStopCall.mk c7StopA 1 (some 500), AddStopCall.mk c7StopB 2 (some 800)],
      1 ≤ c.sequence_number) ∧
    (applyAddStops [AddStopCall.mk c7StopA 1 (some 500), AddStopCall.mk c7StopB 2 (some 800)]
      (mkRoute "R" "R" [])).get_distance_to_next_stop 0 = none :=
  ⟨by decide,
    (claim_C10_distances_discarded "R" "R" []
      [AddStopCall.mk c7StopA 1 (some 500), AddStopCall.mk c7StopB 2 (some 800)]
      (by decide)).2 0⟩

/-- The haversine angular term is invariant under swapping the two
coordinates. -/
theorem hav_aux (la1 lo1 la2 lo2 : ℝ) :
    Real.sin ((la2 - la1) / 2) ^ 2 +
      Real.cos la1 * Real.cos la2 * Real.sin ((lo2 - lo1) / 2) ^ 2 =
    Real.sin ((la1 - la2) / 2) ^ 2 +
      Real.cos la2 * Real.cos la1 * Real.sin ((lo1 - lo2) / 2) ^ 2 := by
  have h1 : (la2 - la1) / 2 = -((la1 - la2) / 2) := by ring
  have h2 : (lo2 - lo1) / 2 = -((lo1 - lo2) / 2) := by ring
  rw [h1, h2, Real.sin_neg, Real.sin_neg]
  ring

/-- Claim C9: haversine_km is symmetric and zero on the diagonal, and the
distance-matrix loop assigns 0.0 to every self edge of feasible_edges. -/
theorem claim_C9_haversine_symm_diag :
    (∀ c1 c2 : ℝ × ℝ, haversine_km c1 c2 = haversine_km c2 c1) ∧
    (∀ c : ℝ × ℝ, haversine_km c c = 0) ∧
    (∀ (coords : String → Option (ℝ × ℝ)) (feasible_edges : List (String × String)),
      ∀ e ∈ feasible_edges, e.1 = e.2 →
        (e, (0 : ℝ)) ∈ compute_and_cache_distances coords feasible_edges) := by
  refine ⟨?_, ?_, ?_⟩
  · intro c1 c2
    simp only [haversine_km]
    rw [hav_aux (c1.1 * (Real.pi / 180)) (c1.2 * (Real.pi / 180))
      (c2.1 * (Real.pi / 180)) (c2.2 * (Real.pi / 180))]
  · intro c
    simp [haversine_km, sub_self, zero_div, Real.sin_zero, Real.sqrt_zero,
      Real.arcsin_zero]
  · intro coords feasible_edges e he heq
    unfold compute_and_cache_distances
    exact List.mem_map.mpr ⟨e, he, by simp [distance_entry, heq]⟩

/-- Witness for claim C9: a concrete self edge mapped to distance zero. -/
theorem claim_C9_haversine_symm_diag_witness :
    ((("a", "a") ∈ [(("a" : String), ("a" : String))]) ∧
      (("a" : String), ("a" : String)).1 = (("a" : String), ("a" : String)).2) ∧
    ((("a", "a"), (0 : ℝ)) ∈
      compute_and_cache_distances (fun _ => (none : Option (ℝ × ℝ)))
        [(("a" : String), ("a" : String))]) :=
  ⟨⟨by decide, rfl⟩,
    claim_C9_haversine_symm_diag.2.2 (fun _ => (none : Option (ℝ × ℝ)))
      [(("a" : String), ("a" : String))] ("a", "a") (by decide) rfl⟩

/-- The raster base depth is never negative. -/
theorem base_depth_nonneg (m : FloodHazardMap) (lon lat : ℚ) :
    0 ≤ m.base_depth_cm_at_point lon lat := by
  unfold FloodHazardMap.base_depth_cm_at_point
  split
  · exact le_refl 0
  · split
    · exact le_refl 0
    · split
      · exact le_refl 0
      · split
        · exact le_refl 0
        · split
          · next h => exact le_of_lt h
          · exact le_refl 0

/-- Claim C4: a timed depth query returns
max(0, base_cm + (precip - recession) * hours) / 100 meters with
hours = max(0, (now - t0) / 3600) and t0 the time of the first timed
query; the result is nonnegative; with zero precipitation and recession
it is time-invariant and equals the base raster value in meters; and the
base value is 0 for out-of-bounds, NaN, and nodata cells. -/
theorem claim_C4_effective_depth (m : FloodHazardMap) (lon lat t : ℚ) :
    ((m.get_effective_depth_m lon lat (some t)).1 =
      max 0 (m.base_depth_cm_at_point lon lat +
        (m.config.precipitation_cm_per_hr - m.config.recession_cm_per_hr) *
          max 0 ((t - m.t0.getD t) / 3600)) / 100) ∧
    (0 ≤ (m.get_effective_depth_m lon lat (some t)).1) ∧
    (m.t0 = none → ((m.get_effective_depth_m lon lat (some t)).2).t0 = some t) ∧
    (m.config.precipitation_cm_per_hr = 0 → m.config.recession_cm_per_hr = 0 →
      (m.get_effective_depth_m lon lat (some t)).1 =
        m.base_depth_cm_at_point lon lat / 100) ∧
    (∀ r, m.raster_data = some r →
      (((m.rowcol lon lat).1 < 0 ∨ r.nrows ≤ (m.rowcol lon lat).1 ∨
          (m.rowcol lon lat).2 < 0 ∨ r.ncols ≤ (m.rowcol lon lat).2) →
        m.base_depth_cm_at_point lon lat = 0) ∧
      (r.cell (m.rowcol lon lat).1 (m.rowcol lon lat).2 = RasterCell.nan →
        m.base_depth_cm_at_point lon lat = 0) ∧
      (∀ d, r.cell (m.rowcol lon lat).1 (m.rowcol lon lat).2 = RasterCell.val d →
        m.nodata_value = some d → m.base_depth_cm_at_point lon lat = 0)) := by
  refine ⟨rfl, ?_, ?_, ?_, ?_⟩
  · show 0 ≤ max 0 (m.base_depth_cm_at_point lon lat +
      (m.config.precipitation_cm_per_hr - m.config.recession_cm_per_hr) *
        max 0 ((t - m.t0.getD t) / 3600)) / 100
    positivity
  · intro h
    simp [FloodHazardMap.get_effective_depth_m, h]
  · intro hp hrr
    show max 0 (m.base_depth_cm_at_point lon lat +
      (m.config.precipitation_cm_per_hr - m.config.recession_cm_per_hr) *
        max 0 ((t - m.t0.getD t) / 3600)) / 100 =
      m.base_depth_cm_at_point lon lat / 100
    rw [hp, hrr]
    rw [show (0 : ℚ) - 0 = 0 by ring, zero_mul, add_zero,
      max_eq_right (base_depth_nonneg m lon lat)]
  · intro r hr
    refine ⟨?_, ?_, ?_⟩
    · intro hout
      simp only [FloodHazardMap.base_depth_cm_at_point, hr]
      rw [if_pos hout]
    · intro hnan
      simp only [FloodHazardMap.base_depth_cm_at_point, hr]
      split
      · rfl
      · rw [hnan]
    · intro d hd hnod
      simp only [FloodHazardMap.base_depth_cm_at_point, hr]
      split
      · rfl
      · rw [hd]
        show (if m.nodata_value = some d then (0 : ℚ)
          else if 0 < d then d else 0) = 0
        rw [if_pos hnod]

/-- Witness for claim C4: a concrete one-cell raster holding 250 cm with
static hydrology, queried at time 1000, returns its base value in
meters. -/
theorem claim_C4_effective_depth_witness :
    (c4Map.config.precipitation_cm_per_hr = 0 ∧
      c4Map.config.recession_cm_per_hr = 0) ∧
    ((c4Map.get_effective_depth_m 76 8 (some 1000)).1 =
      c4Map.base_depth_cm_at_point 76 8 / 100 ∧
      c4Map.base_depth_cm_at_point 76 8 = 250) :=
  ⟨⟨rfl, rfl⟩,
    (claim_C4_effective_depth c4Map 76 8 1000).2.2.2.1 rfl rfl, by decide⟩

/-- Claim C1 (code-bug evidence): pulp maps status -1 to Infeasible, yet
the guard of optimize_network admits -1, so an infeasible solve proceeds
to decision extraction instead of returning the empty decision map, and
stale variable values can even produce decisions. -/
theorem claim_C1_infeasible_extracts :
    lpStatusName (-1) = "Infeasible" ∧
    optimize_network_post ["B1"] ["CS_S_0"] [] c1Sol =
      MipReturn.solved [("B1", MipAction.charge "CS_S_0")] "Infeasible" ∧
    optimize_network_post ["B1"] ["CS_S_0"] [] c1Sol ≠ MipReturn.emptyResult := by
  refine ⟨by decide, by decide, by decide⟩

/-- Claim C2 (code-bug evidence): on a one-slot station, start_charging
preserves the correspondence between charging buses and occupied slots,
but the charge branch of apply_mip_decisions sets the bus charging
without occupying a slot, breaking the invariant. -/
theorem claim_C2_applier_skips_occupy :
    slotInvariant [c2Bus] [c2Station] ∧
    slotInvariant [(c2Bus.start_charging c2Station 1000).1]
      [(c2Bus.start_charging c2Station 1000).2] ∧
    (apply_charge_decision c2Bus "CS_S_0" [("CS_S_0", "S")]
      [c2Station] 1000).status = "charging" ∧
    (apply_charge_decision c2Bus "CS_S_0" [("CS_S_0", "S")]
      [c2Station] 1000).charging_station = some "S" ∧
    ¬ slotInvariant
      [apply_charge_decision c2Bus "CS_S_0" [("CS_S_0", "S")] [c2Station] 1000]
      [c2Station] := by
  refine ⟨by decide, by decide, by decide, by decide, by decide⟩

/-- Claim C6: the charge branch of apply_mip_decisions sets the charging
fields with duration min(needed_kwh / capacity_kw * 3600, 3600) and
transitions the bus to charging when the station resolves and is
operational, free and company-compatible; otherwise it drops the decision
and leaves status, location and soc unchanged. -/
theorem claim_C6_charge_decision (bus : Bus) (station_id : String)
    (C_unique_map : List (String × String)) (stations : List ChargingStation)
    (now : ℚ) :
    (∀ station, lookup_station C_unique_map stations station_id = some station →
      station.is_available bus.company = true → 0 < station.capacity_kw →
      apply_charge_decision bus station_id C_unique_map stations now =
        { bus with
            status := "charging"
            charging_station := some station.name
            charging_start_time := some now
            charging_end_time := some (now +
              min ((100 - bus.soc_percent) / 100 * bus.battery_capacity_kwh /
                station.capacity_kw * 3600) 3600)
            mip_decision := none }) ∧
    ((lookup_station C_unique_map stations station_id = none ∨
      (∃ station, lookup_station C_unique_map stations station_id = some station ∧
        station.is_available bus.company = false)) →
      apply_charge_decision bus station_id C_unique_map stations now =
        { bus with mip_decision := none }) := by
  constructor
  · intro station hs ha _hc
    simp only [apply_charge_decision, hs, ha, if_true, Bus.soc]
  · intro h
    rcases h with hnone | ⟨station, hs, hfalse⟩
    · simp only [apply_charge_decision, hnone]
    · simp only [apply_charge_decision, hs, hfalse, Bool.false_eq_true, if_false]

/-- Witness for claim C6: a concrete available two-slot station resolved
through the station map; the bus at 40 percent soc gets the capped one
hour duration expression. -/
theorem claim_C6_charge_decision_witness :
    (lookup_station [("CS_S6_0", "S6")] [c6Station] "CS_S6_0" = some c6Station ∧
      c6Station.is_available c6Bus.company = true ∧
      0 < c6Station.capacity_kw) ∧
    apply_charge_decision c6Bus "CS_S6_0" [("CS_S6_0", "S6")] [c6Station] 2000 =
      { c6Bus with
          status := "charging"
          charging_station := some c6Station.name
          charging_start_time := some 2000
          charging_end_time := some (2000 +
            min ((100 - c6Bus.soc_percent) / 100 * c6Bus.battery_capacity_kwh /
              c6Station.capacity_kw * 3600) 3600)
          mip_decision := none } :=
  ⟨⟨by decide, by decide, by decide⟩,
    (claim_C6_charge_decision c6Bus "CS_S6_0" [("CS_S6_0", "S6")] [c6Station] 2000).1
      c6Station (by decide) (by decide) (by decide)⟩

/-- Heap insertion preserves membership. -/
theorem mem_insertEvent (a e : SimulationEvent) (l : List SimulationEvent) :
    a ∈ insertEvent e l ↔ a = e ∨ a ∈ l := by
  induction l with
  | nil => simp [insertEvent]
  | cons x xs ih =>
    unfold insertEvent
    split
    · simp [List.mem_cons]
      try tauto
    · simp [List.mem_cons, ih]
      try tauto

/-- The modelled heap holds exactly the inserted events. -/
theorem mem_sortEvents (a : SimulationEvent) (l : List SimulationEvent) :
    a ∈ sortEvents l ↔ a ∈ l := by
  induction l with
  | nil => simp [sortEvents]
  | cons x xs ih =>
    rw [show sortEvents (x :: xs) = insertEvent x (sortEvents xs) from rfl,
      mem_insertEvent]
    simp [List.mem_cons, ih]

/-- The time of the last event of a nonempty batch is below any strict
upper bound of all its event times. -/
theorem batchTime_lt (batch : List SimulationEvent) (bound : ℚ)
    (hne : batch ≠ []) (hall : ∀ e ∈ batch, e.time < bound) :
    batchTime batch < bound := by
  unfold batchTime
  rw [List.getLast?_eq_getLast batch hne]
  exact hall _ (List.getLast_mem hne)

/-- The batch extracted from a nonempty queue starts with the popped
event followed by the clustered events. -/
theorem getNextBatch_fst (e0 : SimulationEvent) (rest : List SimulationEvent)
    (th : ℚ) :
    (getNextBatch (e0 :: rest) th).1 =
      e0 :: rest.takeWhile (fun e => decide (e.time ≤ e0.time + th)) := rfl

/-- One unfolding of the event phase in the batch case. -/
theorem eventPhase_batch_step (cfg : SchedulerConfig) (sim_end : ℚ)
    (fuel : ℕ) (e0 : SimulationEvent) (rest : List SimulationEvent)
    (current : ℚ) (h1 : current < sim_end) (h2 : e0.time ≤ current + 1) :
    eventPhase cfg sim_end (fuel + 1) (e0 :: rest) current =
      ((batchTime (getNextBatch (e0 :: rest) cfg.batch_threshold).1, "batch",
          (getNextBatch (e0 :: rest) cfg.batch_threshold).1) ::
        (eventPhase cfg sim_end fuel
          (getNextBatch (e0 :: rest) cfg.batch_threshold).2
          (batchTime (getNextBatch (e0 :: rest) cfg.batch_threshold).1)).1,
       (eventPhase cfg sim_end fuel
          (getNextBatch (e0 :: rest) cfg.batch_threshold).2
          (batchTime (getNextBatch (e0 :: rest) cfg.batch_threshold).1)).2) := by
  simp only [eventPhase]
  rw [if_pos h1, if_pos h2]

/-- Claim C3 as amended: with a nonempty event list entirely before
sim_start and sim_start < sim_end, the first schedule entry is a batch
entry, but its time is the time of the last event of the first extracted
batch, which is strictly less than sim_start (not sim_start itself). -/
theorem claim_C3_first_entry_amended (cfg : SchedulerConfig)
    (events : List SimulationEvent) (sim_start sim_end : ℚ)
    (fuel1 fuel2 : ℕ)
    (hne : events ≠ [])
    (hall : ∀ e ∈ events, e.time < sim_start)
    (hse : sim_start < sim_end)
    (hf : 1 ≤ fuel1) :
    (init_events cfg events sim_start sim_end fuel1 fuel2).head? =
      some (batchTime (getNextBatch (sortEvents events) cfg.batch_threshold).1,
        "batch",
        (getNextBatch (sortEvents events) cfg.batch_threshold).1) ∧
    batchTime (getNextBatch (sortEvents events) cfg.batch_threshold).1 <
      sim_start := by
  obtain ⟨e0, rest0, hq⟩ : ∃ e0 rest0, sortEvents events = e0 :: rest0 := by
    rcases hq : sortEvents events with _ | ⟨a, l⟩
    · obtain ⟨e, he⟩ := List.exists_mem_of_ne_nil events hne
      have hmem := (mem_sortEvents e events).mpr he
      rw [hq] at hmem
      exact absurd hmem (List.not_mem_nil e)
    · exact ⟨a, l, rfl⟩
  obtain ⟨f0, rfl⟩ : ∃ f0, fuel1 = f0 + 1 := ⟨fuel1 - 1, by omega⟩
  have he0 : e0 ∈ events :=
    (mem_sortEvents e0 events).mp (hq ▸ List.mem_cons_self e0 rest0)
  have he0t : e0.time < sim_start := hall e0 he0
  have hle : e0.time ≤ sim_start + 1 := by linarith
  have hbatchmem : ∀ e ∈ (getNextBatch (e0 :: rest0) cfg.batch_threshold).1,
      e.time < sim_start := by
    intro e he
    rw [getNextBatch_fst] at he
    rcases List.mem_cons.mp he with rfl | htw
    · exact he0t
    · have : e ∈ rest0 := (List.takeWhile_prefix _).subset htw
      have : e ∈ events := by
        refine (mem_sortEvents e events).mp ?_
        rw [hq]
        exact List.mem_cons_of_mem e0 this
      exact hall e this
  constructor
  · simp only [init_events]
    rw [hq, eventPhase_batch_step cfg sim_end f0 e0 rest0 sim_start hse hle]
    rfl
  · rw [hq]
    refine batchTime_lt _ sim_start ?_ hbatchmem
    rw [getNextBatch_fst]
    exact List.cons_ne_nil _ _

/-- Claim C3 counterexample: one event at time 0, sim_start = 100,
sim_end = 130; the first schedule entry is the batch at time 0, not at
sim_start = 100. -/
theorem claim_C3_first_entry_counterexample :
    (init_events {} [c3Event] 100 130 2 1).head? =
      some (0, "batch", [c3Event]) ∧ (0 : ℚ) ≠ 100 := by
  constructor
  · simp only [init_events]
    rw [show sortEvents [c3Event] = [c3Event] from rfl,
      show (2 : ℕ) = 1 + 1 from rfl,
      eventPhase_batch_step ({} : SchedulerConfig) 130 1 c3Event [] 100
        (by norm_num) (by norm_num [c3Event])]
    rfl
  · norm_num

/-- Witness for the amended claim C3 at the concrete one-event input. -/
theorem claim_C3_first_entry_amended_witness :
    (([c3Event] : List SimulationEvent) ≠ [] ∧
      (∀ e ∈ [c3Event], e.time < 100) ∧ (100 : ℚ) < 130 ∧ 1 ≤ 2) ∧
    ((init_events {} [c3Event] 100 130 2 1).head? =
      some (batchTime (getNextBatch (sortEvents [c3Event])
          ({} : SchedulerConfig).batch_threshold).1, "batch",
        (getNextBatch (sortEvents [c3Event])
          ({} : SchedulerConfig).batch_threshold).1) ∧
      batchTime (getNextBatch (sortEvents [c3Event])
        ({} : SchedulerConfig).batch_threshold).1 < 100) :=
  ⟨⟨by decide, by decide, by decide, by decide⟩,
    claim_C3_first_entry_amended {} [c3Event] 100 130 2 1
      (by decide) (by decide) (by decide) (by decide)⟩

/-- With on-route status and no pending decision, a step runs the
on-route logic. -/
theorem step_on_route_no_decision (b : Bus) (ctx : StepContext)
    (hstatus : b.status = "on_route") (hmip : b.mip_decision = none) :
    b.step ctx = b.onRouteStep ctx.stations ctx := by
  simp only [Bus.step, hstatus, hmip]
  simp

/-- The skip branch of the on-route logic: a disrupted next stop adds its
demand to unserved_demand and advances the index, leaving everything else
alone. -/
theorem onRouteStep_skip (b : Bus) (ctx : StepContext) (route : Route)
    (st : Stop)
    (hroute : b.current_route = some route)
    (hstop : route.stops[b.current_stop_index]? = some (some st))
    (hdisr : ∃ d ∈ ctx.disruptions, d.is_active ctx.current_sim_time = true ∧
      d.route_id = route.route_id ∧ st.stop_id ∈ d.affected_stop_ids) :
    b.onRouteStep ctx.stations ctx =
      ({ b with
          unserved_demand := b.unserved_demand + st.demand
          current_stop_index := b.current_stop_index + 1 }, ctx.stations) := by
  have hlt : b.current_stop_index < route.stops.length := by
    by_contra hc
    rw [List.getElem?_eq_none (by omega)] at hstop
    exact Option.noConfusion hstop
  have hgetD : route.stops.getD b.current_stop_index none = some st := by
    simp [List.getD_eq_getElem?_getD, hstop]
  have hany : (ctx.disruptions.any (fun d =>
      d.is_active ctx.current_sim_time && (d.route_id == route.route_id) &&
        decide (st.stop_id ∈ d.affected_stop_ids))) = true := by
    rcases hdisr with ⟨d, hd, hact, hrid, hmem⟩
    refine List.any_eq_true.mpr ⟨d, hd, ?_⟩
    simp [hact, hrid, hmem]
  simp only [Bus.onRouteStep, hroute]
  rw [if_pos hlt, hgetD]
  simp [hany]

/-- Claim C7 counterexample: an on-route bus whose next stop is covered
by an active matching disruption, but which carries a pending charge
decision for an available station, is diverted to charging by the
decision section of Bus.step before the on-route logic runs: the skip
never executes, so the index and unserved demand stay put while the
status and location change — refuting the claim as stated. -/
theorem claim_C7_skip_disrupted_stop_counterexample :
    (c7xBus.status = "on_route" ∧
      c7xBus.current_route = some c7Route ∧
      c7Route.stops[c7xBus.current_stop_index]? = some (some c7StopA) ∧
      (∃ d ∈ c7xCtx.disruptions, d.is_active c7xCtx.current_sim_time = true ∧
        d.route_id = c7Route.route_id ∧
        c7StopA.stop_id ∈ d.affected_stop_ids)) ∧
    (c7xBus.step c7xCtx).1.status = "charging" ∧
    (c7xBus.step c7xCtx).1.status ≠ c7xBus.status ∧
    (c7xBus.step c7xCtx).1.current_stop_index = c7xBus.current_stop_index ∧
    c7xBus.current_stop_index ≠ c7xBus.current_stop_index + 1 ∧
    (c7xBus.step c7xCtx).1.unserved_demand = c7xBus.unserved_demand ∧
    (c7xBus.step c7xCtx).1.current_location ≠ c7xBus.current_location := by
  refine ⟨⟨rfl, rfl, by decide, by decide⟩, by decide, by decide, by decide,
    by decide, by decide, by decide⟩

/-- Claim C7 as amended: in Bus.step, a bus on route with NO pending MIP
decision whose next stop is covered by an active disruption matching its
route skips the stop: unserved_demand grows by exactly the stop demand,
the index advances by exactly one, and soc, location, status and the
station list are unchanged. -/
theorem claim_C7_skip_disrupted_stop (b : Bus) (ctx : StepContext)
    (route : Route) (st : Stop)
    (hstatus : b.status = "on_route")
    (hmip : b.mip_decision = none)
    (hroute : b.current_route = some route)
    (hstop : route.stops[b.current_stop_index]? = some (some st))
    (hdisr : ∃ d ∈ ctx.disruptions, d.is_active ctx.current_sim_time = true ∧
      d.route_id = route.route_id ∧ st.stop_id ∈ d.affected_stop_ids) :
    (b.step ctx).1.unserved_demand = b.unserved_demand + st.demand ∧
    (b.step ctx).1.current_stop_index = b.current_stop_index + 1 ∧
    (b.step ctx).1.soc_percent = b.soc_percent ∧
    (b.step ctx).1.current_location = b.current_location ∧
    (b.step ctx).1.status = b.status ∧
    (b.step ctx).2 = ctx.stations := by
  rw [step_on_route_no_decision b ctx hstatus hmip,
    onRouteStep_skip b ctx route st hroute hstop hdisr]
  exact ⟨rfl, rfl, rfl, rfl, rfl, rfl⟩

/-- Witness for claim C7: a concrete on-route bus facing an active
disruption over its next stop. -/
theorem claim_C7_skip_disrupted_stop_witness :
    (c7Bus.status = "on_route" ∧ c7Bus.mip_decision = none ∧
      c7Bus.current_route = some c7Route ∧
      c7Route.stops[c7Bus.current_stop_index]? = some (some c7StopA) ∧
      (∃ d ∈ c7Ctx.disruptions, d.is_active c7Ctx.current_sim_time = true ∧
        d.route_id = c7Route.route_id ∧ c7StopA.stop_id ∈ d.affected_stop_ids)) ∧
    ((c7Bus.step c7Ctx).1.unserved_demand =
        c7Bus.unserved_demand + c7StopA.demand ∧
      (c7Bus.step c7Ctx).1.current_stop_index = c7Bus.current_stop_index + 1 ∧
      (c7Bus.step c7Ctx).1.soc_percent = c7Bus.soc_percent ∧
      (c7Bus.step c7Ctx).1.current_location = c7Bus.current_location ∧
      (c7Bus.step c7Ctx).1.status = c7Bus.status ∧
      (c7Bus.step c7Ctx).2 = c7Ctx.stations) :=
  ⟨⟨rfl, rfl, rfl, by decide, by decide⟩,
    claim_C7_skip_disrupted_stop c7Bus c7Ctx c7Route c7StopA
      rfl rfl rfl (by decide) (by decide)⟩

/-- Fold preservation for a predicate closed under the step function on
the members of the list. -/
theorem foldl_preserve_mem {α β : Type} (P : β → Prop) (f : β → α → β) :
    ∀ (l : List α), (∀ b a, a ∈ l → P b → P (f b a)) →
      ∀ b, P b → P (l.foldl f b) := by
  intro l
  induction l with
  | nil => intro _ b hb; exact hb
  | cons x xs ih =>
    intro hf b hb
    exact ih (fun b a ha hb => hf b a (List.mem_cons_of_mem x ha) hb) _
      (hf b x (List.mem_cons_self x xs) hb)

/-- Membership after a set insertion. -/
theorem mem_setInsert {α : Type} [DecidableEq α] (s : List α) (x a : α)
    (h : a ∈ setInsert s x) : a = x ∨ a ∈ s := by
  unfold setInsert at h
  split at h
  · exact Or.inr h
  · rcases List.mem_append.mp h with h | h
    · exact Or.inr h
    · exact Or.inl (List.mem_singleton.mp h)

/-- A predicate holding on every entry and on the inserted pair holds on
every entry of the dict after an assignment. -/
theorem dictInsert_entries {α : Type} (P : String × α → Prop)
    (m : List (String × α)) (k : String) (v : α)
    (hm : ∀ p ∈ m, P p) (hkv : P (k, v)) :
    ∀ p ∈ dictInsert m k v, P p := by
  intro p hp
  unfold dictInsert at hp
  split at hp
  · obtain ⟨q, hq, hfq⟩ := List.mem_map.mp hp
    by_cases hqk : q.1 = k
    · rw [if_pos hqk] at hfq
      exact hfq ▸ hkv
    · rw [if_neg hqk] at hfq
      exact hfq ▸ hm q hq
  · rcases List.mem_append.mp hp with h | h
    · exact hm p h
    · rw [List.mem_singleton.mp h]
      exact hkv

/-- The keys of a dict after an assignment. -/
theorem dictKeys_dictInsert {α : Type} (m : List (String × α)) (k : String)
    (v : α) :
    dictKeys (dictInsert m k v) =
      if k ∈ dictKeys m then dictKeys m else dictKeys m ++ [k] := by
  unfold dictInsert
  split
  · unfold dictKeys
    rw [List.map_map]
    apply List.map_congr_left
    intro p _
    by_cases h : p.1 = k
    · simp [Function.comp, h]
    · simp [Function.comp, h]
  · unfold dictKeys
    simp

/-- Existing keys survive a dict assignment. -/
theorem dictKeys_mono {α : Type} (m : List (String × α)) (k : String) (v : α)
    (k' : String) (h : k' ∈ dictKeys m) : k' ∈ dictKeys (dictInsert m k v) := by
  rw [dictKeys_dictInsert]
  split
  · exact h
  · exact List.mem_append.mpr (Or.inl h)

/-- The assigned key is a key of the dict afterwards. -/
theorem dictKeys_self {α : Type} (m : List (String × α)) (k : String) (v : α) :
    k ∈ dictKeys (dictInsert m k v) := by
  rw [dictKeys_dictInsert]
  split
  · exact ‹_›
  · exact List.mem_append.mpr (Or.inr (List.mem_singleton.mpr rfl))

/-- A string whose character data extends the data of a prefix satisfies
the startswith test. -/
theorem pyStartsWith_of_data (s pre : String) (t : List Char)
    (h : s.data = pre.data ++ t) : pyStartsWith s pre = true := by
  unfold pyStartsWith
  rw [h]
  exact List.isPrefixOf_iff_prefix.mpr (List.prefix_append _ _)

/-- The synthetic depot node ids carry the Depot_ prefix. -/
theorem depot_id_starts (name : String) :
    pyStartsWith ("Depot_" ++ name) "Depot_" = true :=
  pyStartsWith_of_data _ _ name.data (by simp [String.data_append])

/-- The synthetic station node ids carry the CS_ prefix. -/
theorem cs_id_starts (name tail : String) :
    pyStartsWith ("CS_" ++ name ++ "_" ++ tail) "CS_" = true :=
  pyStartsWith_of_data _ _ (name.data ++ "_".data ++ tail.data)
    (by simp [String.data_append])

/-- After the stops loop, every entry is a stop entry with a
non-disrupted key. -/
theorem stopsPhase_ok (D : List String) (routes : List Route) :
    ∀ p ∈ stopsPhase D routes,
      (∀ st : Stop, p.2 = MipNode.stop st → p.1 ∉ D) ∧
      (p.1 ∉ D ∨ pyStartsWith p.1 "Depot_" = true ∨
        pyStartsWith p.1 "CS_" = true) := by
  unfold stopsPhase
  refine foldl_preserve_mem
    (fun m : List (String × MipNode) => ∀ p ∈ m,
      (∀ st : Stop, p.2 = MipNode.stop st → p.1 ∉ D) ∧
      (p.1 ∉ D ∨ pyStartsWith p.1 "Depot_" = true ∨
        pyStartsWith p.1 "CS_" = true))
    _ routes ?_ [] ?_
  · intro m route _ hm
    refine foldl_preserve_mem
      (fun m : List (String × MipNode) => ∀ p ∈ m,
        (∀ st : Stop, p.2 = MipNode.stop st → p.1 ∉ D) ∧
        (p.1 ∉ D ∨ pyStartsWith p.1 "Depot_" = true ∨
          pyStartsWith p.1 "CS_" = true))
      _ route.stops ?_ m hm
    intro m' stopO _ hm'
    cases stopO with
    | none => exact hm'
    | some stop =>
      dsimp only
      split
      · exact hm'
      · next hguard =>
        intro p hp
        rcases List.mem_append.mp hp with h | h
        · exact hm' p h
        · rw [List.mem_singleton.mp h]
          have hnd : stop.stop_id ∉ D := fun hin => hguard (Or.inr hin)
          exact ⟨fun _ _ => hnd, Or.inl hnd⟩
  · simp

/-- The depots loop preserves the entry classification and produces ids
that are keys with the Depot_ prefix. -/
theorem depotsPhase_ok (D : List String) (m0 : List (String × MipNode))
    (depots : List Depot)
    (hm0 : ∀ p ∈ m0,
      (∀ st : Stop, p.2 = MipNode.stop st → p.1 ∉ D) ∧
      (p.1 ∉ D ∨ pyStartsWith p.1 "Depot_" = true ∨
        pyStartsWith p.1 "CS_" = true)) :
    (∀ p ∈ (depotsPhase m0 depots).1,
      (∀ st : Stop, p.2 = MipNode.stop st → p.1 ∉ D) ∧
      (p.1 ∉ D ∨ pyStartsWith p.1 "Depot_" = true ∨
        pyStartsWith p.1 "CS_" = true)) ∧
    (∀ d ∈ (depotsPhase m0 depots).2,
      d ∈ dictKeys (depotsPhase m0 depots).1 ∧
      pyStartsWith d "Depot_" = true) := by
  unfold depotsPhase
  refine foldl_preserve_mem
    (fun pr : List (String × MipNode) × List String =>
      (∀ p ∈ pr.1,
        (∀ st : Stop, p.2 = MipNode.stop st → p.1 ∉ D) ∧
        (p.1 ∉ D ∨ pyStartsWith p.1 "Depot_" = true ∨
          pyStartsWith p.1 "CS_" = true)) ∧
      (∀ d ∈ pr.2, d ∈ dictKeys pr.1 ∧ pyStartsWith d "Depot_" = true))
    _ depots ?_ (m0, []) ?_
  · intro pr depot _ hpr
    dsimp only
    constructor
    · have hkv : (∀ st : Stop,
          MipNode.depot depot = MipNode.stop st → "Depot_" ++ depot.name ∉ D) ∧
          ("Depot_" ++ depot.name ∉ D ∨
            pyStartsWith ("Depot_" ++ depot.name) "Depot_" = true ∨
            pyStartsWith ("Depot_" ++ depot.name) "CS_" = true) :=
        ⟨(fun st h => nomatch h), Or.inr (Or.inl (depot_id_starts depot.name))⟩
      exact dictInsert_entries _ pr.1 ("Depot_" ++ depot.name)
        (MipNode.depot depot) hpr.1 hkv
    · intro d hd
      rcases List.mem_append.mp hd with h | h
      · obtain ⟨hk, hs⟩ := hpr.2 d h
        exact ⟨dictKeys_mono _ _ _ d hk, hs⟩
      · rw [List.mem_singleton.mp h]
        exact ⟨dictKeys_self _ _ _, depot_id_starts depot.name⟩
  · exact ⟨hm0, by simp⟩

/-- The stations loop preserves the entry classification, keeps any fixed
id list inside the keys, and produces a C map keyed with the CS_
prefix. -/
theorem stationsPhase_ok (D : List String) (ds : List String)
    (m0 : List (String × MipNode)) (stations : List ChargingStation)
    (dcs : List String)
    (hm0 : ∀ p ∈ m0,
      (∀ st : Stop, p.2 = MipNode.stop st → p.1 ∉ D) ∧
      (p.1 ∉ D ∨ pyStartsWith p.1 "Depot_" = true ∨
        pyStartsWith p.1 "CS_" = true))
    (hds : ∀ d ∈ ds, d ∈ dictKeys m0) :
    (∀ p ∈ (stationsPhase m0 stations dcs).1,
      (∀ st : Stop, p.2 = MipNode.stop st → p.1 ∉ D) ∧
      (p.1 ∉ D ∨ pyStartsWith p.1 "Depot_" = true ∨
        pyStartsWith p.1 "CS_" = true)) ∧
    (∀ k ∈ dictKeys (stationsPhase m0 stations dcs).2.1,
      k ∈ dictKeys (stationsPhase m0 stations dcs).1 ∧
      pyStartsWith k "CS_" = true) ∧
    (∀ d ∈ ds, d ∈ dictKeys (stationsPhase m0 stations dcs).1) := by
  unfold stationsPhase
  refine foldl_preserve_mem
    (fun pr : List (String × MipNode) × List (String × ChargingStation) × ℕ =>
      (∀ p ∈ pr.1,
        (∀ st : Stop, p.2 = MipNode.stop st → p.1 ∉ D) ∧
        (p.1 ∉ D ∨ pyStartsWith p.1 "Depot_" = true ∨
          pyStartsWith p.1 "CS_" = true)) ∧
      (∀ k ∈ dictKeys pr.2.1,
        k ∈ dictKeys pr.1 ∧ pyStartsWith k "CS_" = true) ∧
      (∀ d ∈ ds, d ∈ dictKeys pr.1))
    _ stations ?_ (m0, [], 0) ?_
  · intro pr station _ hpr
    dsimp only
    split
    · exact hpr
    · refine ⟨?_, ?_, ?_⟩
      · have hkv : (∀ st : Stop,
            MipNode.station station = MipNode.stop st →
              "CS_" ++ station.name ++ "_" ++ toString pr.2.2 ∉ D) ∧
            ("CS_" ++ station.name ++ "_" ++ toString pr.2.2 ∉ D ∨
              pyStartsWith ("CS_" ++ station.name ++ "_" ++ toString pr.2.2)
                "Depot_" = true ∨
              pyStartsWith ("CS_" ++ station.name ++ "_" ++ toString pr.2.2)
                "CS_" = true) :=
          ⟨(fun st h => nomatch h),
            Or.inr (Or.inr (cs_id_starts station.name (toString pr.2.2)))⟩
        exact dictInsert_entries _ pr.1 _ (MipNode.station station) hpr.1 hkv
      · intro k hk
        rw [dictKeys_dictInsert] at hk
        have hnew : ∀ hk2 : k = "CS_" ++ station.name ++ "_" ++ toString pr.2.2,
            k ∈ dictKeys (dictInsert pr.1
              ("CS_" ++ station.name ++ "_" ++ toString pr.2.2)
              (MipNode.station station)) ∧ pyStartsWith k "CS_" = true := by
          intro hk2
          rw [hk2]
          exact ⟨dictKeys_self _ _ _, cs_id_starts station.name (toString pr.2.2)⟩
        split at hk
        · obtain ⟨hkm, hks⟩ := hpr.2.1 k hk
          exact ⟨dictKeys_mono _ _ _ k hkm, hks⟩
        · rcases List.mem_append.mp hk with h | h
          · obtain ⟨hkm, hks⟩ := hpr.2.1 k h
            exact ⟨dictKeys_mono _ _ _ k hkm, hks⟩
          · exact hnew (List.mem_singleton.mp h)
      · intro d hd
        exact dictKeys_mono _ _ _ d (hpr.2.2 d hd)
  · exact ⟨hm0, by simp [dictKeys], hds⟩

/-- Edge rule 1 only emits targets that are node ids. -/
theorem edgesRule1_targets (S_ids : List String)
    (de : List (String × String)) (routes : List Route) :
    ∀ e ∈ edgesRule1 S_ids de routes, e.2 ∈ S_ids := by
  unfold edgesRule1
  refine foldl_preserve_mem
    (fun es : List (String × String) => ∀ e ∈ es, e.2 ∈ S_ids)
    _ routes ?_ [] (by simp)
  intro es route _ hes
  refine foldl_preserve_mem
    (fun es : List (String × String) => ∀ e ∈ es, e.2 ∈ S_ids)
    _ (List.range (route.stops.length - 1)) ?_ es hes
  intro es' i _ hes'
  dsimp only
  split <;> try exact hes'
  split
  · next hguard =>
    intro e he
    rcases mem_setInsert _ _ _ he with rfl | hold
    · exact hguard.2.1
    · exact hes' e hold
  · exact hes'

/-- Edge rule 2 only emits targets among the station node ids. -/
theorem edgesRule2_targets (S_ids C_ids : List String)
    (es0 : List (String × String)) (hC : ∀ c ∈ C_ids, c ∈ S_ids)
    (h0 : ∀ e ∈ es0, e.2 ∈ S_ids) :
    ∀ e ∈ edgesRule2 S_ids C_ids es0, e.2 ∈ S_ids := by
  unfold edgesRule2
  refine foldl_preserve_mem
    (fun es : List (String × String) => ∀ e ∈ es, e.2 ∈ S_ids)
    _ _ ?_ es0 h0
  intro es s _ hes
  refine foldl_preserve_mem
    (fun es : List (String × String) => ∀ e ∈ es, e.2 ∈ S_ids)
    _ C_ids ?_ es hes
  intro es' c hc hes'
  intro e he
  rcases mem_setInsert _ _ _ he with rfl | hold
  · exact hC c hc
  · exact hes' e hold

/-- Edge rule 3 only emits targets among the depot node ids. -/
theorem edgesRule3_targets (S_ids C_ids depot_ids : List String)
    (es0 : List (String × String)) (hD : ∀ d ∈ depot_ids, d ∈ S_ids)
    (h0 : ∀ e ∈ es0, e.2 ∈ S_ids) :
    ∀ e ∈ edgesRule3 C_ids depot_ids es0, e.2 ∈ S_ids := by
  unfold edgesRule3
  refine foldl_preserve_mem
    (fun es : List (String × String) => ∀ e ∈ es, e.2 ∈ S_ids)
    _ C_ids ?_ es0 h0
  intro es c _ hes
  refine foldl_preserve_mem
    (fun es : List (String × String) => ∀ e ∈ es, e.2 ∈ S_ids)
    _ depot_ids ?_ es hes
  intro es' d hd hes'
  intro e he
  rcases mem_setInsert _ _ _ he with rfl | hold
  · exact hD d hd
  · exact hes' e hold

/-- Edge rule 4 only emits guarded first-stop targets. -/
theorem edgesRule4_targets (S_ids depot_ids : List String)
    (routes : List Route) (es0 : List (String × String))
    (h0 : ∀ e ∈ es0, e.2 ∈ S_ids) :
    ∀ e ∈ edgesRule4 S_ids depot_ids routes es0, e.2 ∈ S_ids := by
  unfold edgesRule4
  refine foldl_preserve_mem
    (fun es : List (String × String) => ∀ e ∈ es, e.2 ∈ S_ids)
    _ depot_ids ?_ es0 h0
  intro es d _ hes
  refine foldl_preserve_mem
    (fun es : List (String × String) => ∀ e ∈ es, e.2 ∈ S_ids)
    _ routes ?_ es hes
  intro es' route _ hes'
  dsimp only
  split <;> try exact hes'
  split
  · next hguard =>
    intro e he
    rcases mem_setInsert _ _ _ he with rfl | hold
    · exact hguard
    · exact hes' e hold
  · exact hes'

/-- Edge rule 5 only emits targets among the depot node ids. -/
theorem edgesRule5_targets (S_map : List (String × MipNode))
    (S_ids depot_ids : List String) (es0 : List (String × String))
    (hD : ∀ d ∈ depot_ids, d ∈ S_ids) (h0 : ∀ e ∈ es0, e.2 ∈ S_ids) :
    ∀ e ∈ edgesRule5 S_map S_ids depot_ids es0, e.2 ∈ S_ids := by
  unfold edgesRule5
  refine foldl_preserve_mem
    (fun es : List (String × String) => ∀ e ∈ es, e.2 ∈ S_ids)
    _ _ ?_ es0 h0
  intro es s _ hes
  refine foldl_preserve_mem
    (fun es : List (String × String) => ∀ e ∈ es, e.2 ∈ S_ids)
    _ depot_ids ?_ es hes
  intro es' d hd hes'
  intro e he
  rcases mem_setInsert _ _ _ he with rfl | hold
  · exact hD d hd
  · exact hes' e hold

/-- The complete node classification of the built graph: stop entries
carry non-disrupted keys; station map keys and depot ids are node keys
with their synthetic prefixes. -/
theorem build_graph_ok (routes : List Route)
    (charging_stations : List ChargingStation) (depots : List Depot)
    (active_disruptions : List DisruptionEvent) :
    (∀ p ∈ (build_node_maps_and_feasible_edges routes charging_stations
        depots active_disruptions).S_map,
      (∀ st : Stop, p.2 = MipNode.stop st →
        p.1 ∉ (build_node_maps_and_feasible_edges routes charging_stations
          depots active_disruptions).disrupted_stop_ids) ∧
      (p.1 ∉ (build_node_maps_and_feasible_edges routes charging_stations
          depots active_disruptions).disrupted_stop_ids ∨
        pyStartsWith p.1 "Depot_" = true ∨ pyStartsWith p.1 "CS_" = true)) ∧
    (∀ k ∈ dictKeys (build_node_maps_and_feasible_edges routes
        charging_stations depots active_disruptions).C_unique_map,
      k ∈ dictKeys (build_node_maps_and_feasible_edges routes
        charging_stations depots active_disruptions).S_map ∧
      pyStartsWith k "CS_" = true) ∧
    (∀ d ∈ (build_node_maps_and_feasible_edges routes charging_stations
        depots active_disruptions).depot_ids,
      d ∈ dictKeys (build_node_maps_and_feasible_edges routes
        charging_stations depots active_disruptions).S_map ∧
      pyStartsWith d "Depot_" = true) := by
  have h1 := stopsPhase_ok (disruptedStopIdsOf active_disruptions) routes
  have h2 := depotsPhase_ok (disruptedStopIdsOf active_disruptions)
    (stopsPhase (disruptedStopIdsOf active_disruptions) routes) depots h1
  have h3 := stationsPhase_ok (disruptedStopIdsOf active_disruptions)
    (depotsPhase (stopsPhase (disruptedStopIdsOf active_disruptions) routes)
      depots).2
    (depotsPhase (stopsPhase (disruptedStopIdsOf active_disruptions) routes)
      depots).1
    charging_stations [] h2.1 (fun d hd => (h2.2 d hd).1)
  exact ⟨h3.1, h3.2.1, fun d hd => ⟨h3.2.2 d hd, (h2.2 d hd).2⟩⟩

/-- Every feasible edge of the built graph targets a node key. -/
theorem build_feasible_edges_targets (routes : List Route)
    (charging_stations : List ChargingStation) (depots : List Depot)
    (active_disruptions : List DisruptionEvent) :
    ∀ e ∈ (build_node_maps_and_feasible_edges routes charging_stations
        depots active_disruptions).feasible_edges,
      e.2 ∈ dictKeys (build_node_maps_and_feasible_edges routes
        charging_stations depots active_disruptions).S_map := by
  have hok := build_graph_ok routes charging_stations depots active_disruptions
  exact edgesRule5_targets _ _ _ _ (fun d hd => (hok.2.2 d hd).1)
    (edgesRule4_targets _ _ routes _
      (edgesRule3_targets _ _ _ _ (fun d hd => (hok.2.2 d hd).1)
        (edgesRule2_targets _ _ _ (fun c hc => (hok.2.1 c hc).1)
          (edgesRule1_targets _ _ routes))))

/-- Claim C8: a stop id listed by an active disruption never appears as a
stop node of the built graph, and no decision extracted by
optimize_network is a move whose target is a disrupted stop id (so the
applier never jumps a bus to a disrupted stop). -/
theorem claim_C8_disrupted_stops_excluded (routes : List Route)
    (charging_stations : List ChargingStation) (depots : List Depot)
    (active_disruptions : List DisruptionEvent) (g : NetworkGraph)
    (hg : build_node_maps_and_feasible_edges routes charging_stations depots
      active_disruptions = g) :
    (∀ p ∈ g.S_map, ∀ st : Stop, p.2 = MipNode.stop st →
      p.1 ∉ g.disrupted_stop_ids) ∧
    (∀ (buses : List String) (sol : SolveOutcome) (b tgt : String),
      (b, MipAction.move tgt) ∈
        extract_decisions buses (dictKeys g.C_unique_map) g.feasible_edges sol →
      tgt ∉ g.disrupted_stop_ids) := by
  subst hg
  have hok := build_graph_ok routes charging_stations depots active_disruptions
  constructor
  · intro p hp st hst
    exact (hok.1 p hp).1 st hst
  · intro buses sol b tgt hmem
    obtain ⟨b', hb', heq⟩ := List.mem_filterMap.mp hmem
    obtain ⟨a, ha, hba⟩ := Option.map_eq_some'.mp heq
    have hamove : a = MipAction.move tgt := (Prod.ext_iff.mp hba).2
    rw [hamove] at ha
    unfold perBusDecision at ha
    split at ha
    · simp at ha
    · split at ha
      · next e hfind =>
        split at ha
        · simp at ha
        · next hnd =>
          split at ha
          · simp at ha
          · next hnc =>
            have htgt : e.2 = tgt := by simpa using ha
            have hedge := List.mem_of_find?_eq_some hfind
            have htk := build_feasible_edges_targets routes charging_stations
              depots active_disruptions e hedge
            obtain ⟨p, hp, hpk⟩ := List.mem_map.mp htk
            rcases (hok.1 p hp).2 with hnotin | hdep | hcs
            · rw [hpk, htgt] at hnotin
              exact hnotin
            · rw [hpk] at hdep
              exact absurd hdep hnd
            · rw [hpk] at hcs
              exact absurd hcs hnc
      · exact Option.noConfusion ha

/-- Witness for claim C8: the concrete graph with stop B disrupted, a
feasible solve moving bus B1 from the depot node to stop A; the move
target A is not a disrupted stop id. -/
theorem claim_C8_disrupted_stops_excluded_witness :
    (build_node_maps_and_feasible_edges [c7Route]
        [mkChargingStation "S8" locB 100 1 ["Default"] true] [c8Depot]
        [c8Disruption] = c8Graph ∧
      ("B1", MipAction.move "A") ∈
        extract_decisions ["B1"] (dictKeys c8Graph.C_unique_map)
          c8Graph.feasible_edges c8Sol) ∧
    "A" ∉ c8Graph.disrupted_stop_ids :=
  ⟨⟨rfl, by decide⟩,
    (claim_C8_disrupted_stops_excluded [c7Route]
      [mkChargingStation "S8" locB 100 1 ["Default"] true] [c8Depot]
      [c8Disruption] c8Graph rfl).2 ["B1"] c8Sol "B1" "A" (by decide)⟩

end EFleets
